import Mathlib

/-!
Verification development for the SHA3 side-channel capture core of `ot-sca`.

We give a shallow embedding of the two source files:

* `capture/capture_sha3.py` — the FVSR stimulus generator
  (`generate_ref_crypto`), the batch XOR-folding accumulator, the digest
  check (`check_ciphertext`) and the main capture loop (`capture`);
* `util/data_generator.py` — the deterministic host-side stimulus
  generator (`advance_fixed`, `advance_random`, `get_fixed`, `get_random`,
  `get_kmac_fixed`, `get_kmac_random`).

Modelling conventions:

* bytes are `Nat`s (the sources manipulate Python ints in 0..255; the
  PRNG draw `random.randint(0, 255)` is modelled as `rand k % 256`, which
  encodes the contract of `randint`);
* the external cryptographic primitives (AES-ECB single-block encryption,
  SHA3-256, KMAC128) and the device/scope collaborators are opaque to the
  source and are passed in as a bundle of function parameters (`Prims`);
* the stateful module-level PRNG (`random`) is modelled as an indexed
  stream `rand : Nat → Nat` together with a draw counter threaded through
  the state;
* the capture loop runs on explicit fuel; `capture` supplies
  `num_traces.toNat` fuel, which is sufficient whenever
  `num_segments ≥ 1` (each iteration consumes one fuel and decreases the
  remaining trace count by `num_segments ≥ 1`).
-/

namespace OtSca

/-- Byte strings are lists of naturals (each in 0..255 in the source). -/
abbrev Bytes := List Nat

/-- External collaborators and cryptographic primitives of the two source
files, opaque to the code under verification: `sha3` is SHA3-256, `aes`
is one-block AES-ECB encryption (key, block), `kmac` is KMAC128
(key, message), `rand` is the host PRNG draw stream (`random.randint`),
and `device it` is the ciphertext read back from the device
(`ot_sha3.read_ciphertext`) at outer loop iteration `it`. -/
structure Prims where
  sha3 : Bytes → Bytes
  aes : Bytes → Bytes → Bytes
  kmac : Bytes → Bytes → Bytes
  rand : Nat → Nat
  device : Nat → Bytes

/-- Capture mode of `capture_sha3.py` (`capture_cfg.capture_mode`). -/
inductive Mode where
  | sha3_fvsr_data
  | sha3_random
deriving DecidableEq

/-- The fields of `CaptureConfig` that the core logic reads. -/
structure CapCfg where
  mode : Mode
  batch_mode : Bool
  num_segments : Nat
  output_len : Nat
  text_fixed : Bytes
  text_len_bytes : Nat
deriving DecidableEq

/-! ## util/data_generator.py -/

/-- The constant generator key `key_generation` (data_generator.py,
lines 12-13). -/
def key_generation : Bytes :=
  [0x12, 0x34, 0x56, 0x78, 0x9A, 0xBC, 0xDE, 0xF1, 0x23, 0x45, 0x67, 0x89,
   0xAB, 0xCD, 0xE0, 0xF0]

/-- State of the `data_generator` class: the two text blocks and the two
key blocks (data_generator.py, lines 15-22). -/
structure GenState where
  text_fixed : Bytes
  text_random : Bytes
  key_fixed : Bytes
  key_random : Bytes
deriving DecidableEq

/-- Initial generator state: the class attribute values of
`data_generator` (also restored by `set_start`). -/
def init_gen_state : GenState where
  text_fixed := List.replicate 16 0xAA
  text_random := List.replicate 16 0xCC
  key_fixed := [0x81, 0x1E, 0x37, 0x31, 0xB0, 0x12, 0x0A, 0x78, 0x42, 0x78,
                0x1E, 0x22, 0xB2, 0x5C, 0xDD, 0xF9]
  key_random := List.replicate 16 0x53

/-- The `set_start` method: restores the pristine class-attribute state. -/
def set_start (_s : GenState) : GenState := init_gen_state

/-- The `advance_fixed` method: re-encrypts `text_fixed` under the
generator cipher (data_generator.py, lines 39-40). -/
def advance_fixed (P : Prims) (s : GenState) : GenState :=
  { s with text_fixed := P.aes key_generation s.text_fixed }

/-- The `advance_random` method: re-encrypts `text_random` and
`key_random` under the generator cipher (data_generator.py, lines 42-44). -/
def advance_random (P : Prims) (s : GenState) : GenState :=
  { s with text_random := P.aes key_generation s.text_random,
           key_random := P.aes key_generation s.key_random }

/-- The `get_fixed` method: returns `(pt, ct, key)` for the fixed half
(ct is AES under `key_fixed`), then advances the fixed half
(data_generator.py, lines 46-53). -/
def get_fixed (P : Prims) (s : GenState) : (Bytes × Bytes × Bytes) × GenState :=
  ((s.text_fixed, P.aes s.key_fixed s.text_fixed, s.key_fixed), advance_fixed P s)

/-- The `get_random` method: returns `(pt, ct, key)` for the random half
(ct is AES under `key_random`), then advances the random half
(data_generator.py, lines 55-62). -/
def get_random (P : Prims) (s : GenState) : (Bytes × Bytes × Bytes) × GenState :=
  ((s.text_random, P.aes s.key_random s.text_random, s.key_random), advance_random P s)

/-- The `get_kmac_fixed` method: KMAC128 tag over the fixed half, then
advances the fixed half (data_generator.py, lines 64-72). -/
def get_kmac_fixed (P : Prims) (s : GenState) : (Bytes × Bytes × Bytes) × GenState :=
  ((s.text_fixed, P.kmac s.key_fixed s.text_fixed, s.key_fixed), advance_fixed P s)

/-- The `get_kmac_random` method: KMAC128 tag over the random half, then
advances the random half (data_generator.py, lines 74-83). -/
def get_kmac_random (P : Prims) (s : GenState) : (Bytes × Bytes × Bytes) × GenState :=
  ((s.text_random, P.kmac s.key_random s.text_random, s.key_random), advance_random P s)

/-- Modelled from the spec: `capture_sha3.py` calls `dg.get_sha3_fixed()`
but `util/data_generator.py` in `src/` exports no such function. Per the
spec (section 4.1), `get_fixed(state)` returns the current fixed values
and their corresponding reference digest, then advances the fixed half of
the state; the reference digest for SHA3 capture is the SHA3-256 digest
of the current fixed text. -/
def get_sha3_fixed (P : Prims) (s : GenState) : (Bytes × Bytes × Bytes) × GenState :=
  ((s.text_fixed, P.sha3 s.text_fixed, s.key_fixed), advance_fixed P s)

/-- Modelled from the spec: `dg.get_sha3_random` is absent from
`src/util/data_generator.py`; per the spec (section 4.1) it returns the
current random values and their SHA3-256 reference digest, then advances
the random half of the state. -/
def get_sha3_random (P : Prims) (s : GenState) : (Bytes × Bytes × Bytes) × GenState :=
  ((s.text_random, P.sha3 s.text_random, s.key_random), advance_random P s)

/-- One call name on the shared `data_generator` instance. -/
inductive DgCall where
  | get_fixed
  | get_random
  | get_kmac_fixed
  | get_kmac_random
deriving DecidableEq

/-- Dispatch one generator call. -/
def dg_call (P : Prims) : DgCall → GenState → (Bytes × Bytes × Bytes) × GenState
  | DgCall.get_fixed, s => get_fixed P s
  | DgCall.get_random, s => get_random P s
  | DgCall.get_kmac_fixed, s => get_kmac_fixed P s
  | DgCall.get_kmac_random, s => get_kmac_random P s

/-- Replay a sequence of generator calls, collecting every
`(pt, ct, key)` output. -/
def run_calls (P : Prims) : List DgCall → GenState → List (Bytes × Bytes × Bytes) × GenState
  | [], s => ([], s)
  | c :: cs, s =>
    ((dg_call P c s).1 :: (run_calls P cs (dg_call P c s).2).1,
     (run_calls P cs (dg_call P c s).2).2)

/-! ## capture/capture_sha3.py: generate_ref_crypto -/

/-- Draws `n` sequential bytes from the host PRNG starting at draw index
`k`: the loop `for i in range(n): out.append(random.randint(0, 255))`. -/
def drawBytes (rand : Nat → Nat) : Nat → Nat → Bytes
  | _, 0 => []
  | k, n + 1 => (rand k % 256) :: drawBytes rand (k + 1) n

/-- Result of `generate_ref_crypto`: the plaintext, the expected
ciphertext (digest), the next-sample selector, plus the two pieces of
module state the Python function mutates (the `data_generator` state and
the host PRNG draw counter). -/
structure RefCrypto where
  plaintext : Bytes
  ciphertext : Bytes
  sample_fixed : Nat
  dg : GenState
  k : Nat
deriving DecidableEq

/-- The `generate_ref_crypto` function (capture_sha3.py, lines 173-229).
Branches exactly as in the source: non-batch FVSR uses the
`data_generator`; `sha3_random` digests the given plaintext unchanged;
FVSR batch picks fixed or fresh random plaintext by the incoming
selector, draws a 16-byte dummy block, and takes the next selector from
the dummy's first byte. `plaintext[0]` is modelled as `headD 0` (the
source would raise `IndexError` on an empty plaintext, which does not
arise). -/
def generate_ref_crypto (P : Prims) (sample_fixed : Nat) (mode : Mode)
    (batch : Bool) (plaintext plaintext_fixed : Bytes) (text_len_bytes : Nat)
    (dg : GenState) (k : Nat) : RefCrypto :=
  if mode = Mode.sha3_fvsr_data ∧ batch = false then
    let r := if sample_fixed ≠ 0 then get_sha3_fixed P dg else get_sha3_random P dg
    { plaintext := r.1.1, ciphertext := r.1.2.1,
      sample_fixed := Nat.land (r.1.1.headD 0) 1, dg := r.2, k := k }
  else if mode = Mode.sha3_random then
    { plaintext := plaintext, ciphertext := P.sha3 plaintext,
      sample_fixed := sample_fixed, dg := dg, k := k }
  else
    let pt := if sample_fixed ≠ 0 then plaintext_fixed
              else drawBytes P.rand k text_len_bytes
    let k1 := if sample_fixed ≠ 0 then k else k + text_len_bytes
    let dummy := drawBytes P.rand k1 16
    { plaintext := pt, ciphertext := P.sha3 pt,
      sample_fixed := Nat.land (dummy.headD 0) 1, dg := dg, k := k1 + 16 }

/-- The comparison of `check_ciphertext` (capture_sha3.py, lines 232-249):
the device-read value against the first `ciphertext_len` bytes of the
expected value; `false` means the assertion fires (fatal). The device
read is passed in as `actual`. -/
def check_ciphertext (actual expected : Bytes) (ciphertext_len : Nat) : Bool :=
  actual == expected.take ciphertext_len

/-! ## capture/capture_sha3.py: the capture loop -/

/-- The loop state of `capture` (capture_sha3.py, lines 268-288): the
current plaintext `text`, the current `ciphertext`, the FVSR selector
`sample_fixed`, plus the two mutated module states (`data_generator`
state and host PRNG draw counter) and the traces appended to the project
so far. `ct` starts as `[]`: in the source `ciphertext` is unassigned
until the first `generate_ref_crypto` call, and it is never read before
being assigned. -/
structure CapSt where
  text : Bytes
  ct : Bytes
  sample_fixed : Nat
  dg : GenState
  k : Nat
  traces : List (Bytes × Bytes)
deriving DecidableEq

/-- Initial loop state (capture_sha3.py, lines 268-275): `text` is the
configured fixed text and `sample_fixed = 0`, mirroring the device
firmware's `static bool run_fixed = false;`. -/
def init_capture_state (text_fixed : Bytes) : CapSt where
  text := text_fixed
  ct := []
  sample_fixed := 0
  dg := init_gen_state
  k := 0
  traces := []

/-- The XOR-fold accumulator update (capture_sha3.py, lines 337-342): a
first segment digest replaces the absent accumulator; a later digest is
zipped with the accumulator by exclusive-or
(`(a ^ b) for (a, b) in zip(ciphertext, expected_ciphertext)`). -/
def xorFoldStep (expected : Option Bytes) (ciphertext : Bytes) : Option Bytes :=
  match expected with
  | none => some ciphertext
  | some e => some (List.zipWith Nat.xor ciphertext e)

/-- The per-segment `expected_ciphertext` update (capture_sha3.py,
lines 337-344): XOR-fold in batch mode, plain overwrite otherwise. -/
def segment_expected_update (c : CapCfg) (expected : Option Bytes)
    (ciphertext : Bytes) : Option Bytes :=
  if c.batch_mode = true then xorFoldStep expected ciphertext else some ciphertext

/-- One pass of the inner segment loop body (capture_sha3.py,
lines 314-335) minus the expected-value update: in batch or
`sha3_random` mode call `generate_ref_crypto` and take its outputs, then
append the `(text, ciphertext)` pair to the project, and in
`sha3_random` mode draw 16 fresh bytes into a local variable `plaintext`
that is never read again (modelled as advancing the PRNG counter by 16). -/
def capture_segment (P : Prims) (c : CapCfg) (st : CapSt) : CapSt :=
  let st1 :=
    if c.batch_mode = true ∨ c.mode = Mode.sha3_random then
      let r := generate_ref_crypto P st.sample_fixed c.mode c.batch_mode
        st.text c.text_fixed c.text_len_bytes st.dg st.k
      { text := r.plaintext, ct := r.ciphertext, sample_fixed := r.sample_fixed,
        dg := r.dg, k := r.k,
        traces := st.traces ++ [(r.plaintext, r.ciphertext)] }
    else
      { st with traces := st.traces ++ [(st.text, st.ct)] }
  if c.mode = Mode.sha3_random then { st1 with k := st1.k + 16 } else st1

/-- The inner `for i in range(capture_cfg.num_segments)` loop
(capture_sha3.py, lines 312-344), threading the state and the
`expected_ciphertext` accumulator. -/
def segment_loop (P : Prims) (c : CapCfg) :
    Nat → CapSt → Option Bytes → CapSt × Option Bytes
  | 0, st, expected => (st, expected)
  | n + 1, st, expected =>
    segment_loop P c n (capture_segment P c st)
      (segment_expected_update c expected (capture_segment P c st).ct)

/-- The ciphertexts produced by `n` passes of the segment loop, in
trigger order. -/
def segment_ct_list (P : Prims) (c : CapCfg) : Nat → CapSt → List Bytes
  | 0, _ => []
  | n + 1, st =>
    (capture_segment P c st).ct :: segment_ct_list P c n (capture_segment P c st)

/-- The pre-trigger step of one while-iteration (capture_sha3.py,
lines 296-307): in non-batch FVSR mode, `generate_ref_crypto` runs once
before `ot_sha3.absorb(text)`; in every other mode nothing happens here
(batch mode only sends the segment count). -/
def capture_pre_step (P : Prims) (c : CapCfg) (st : CapSt) : CapSt :=
  if c.batch_mode = false ∧ c.mode = Mode.sha3_fvsr_data then
    let r := generate_ref_crypto P st.sample_fixed c.mode c.batch_mode
      st.text c.text_fixed c.text_len_bytes st.dg st.k
    { st with text := r.plaintext, ct := r.ciphertext,
              sample_fixed := r.sample_fixed, dg := r.dg, k := r.k }
  else st

/-- One full while-iteration of `capture` up to (excluding) the digest
check: pre-trigger step, then the segment loop starting from an absent
(`None`) accumulator (capture_sha3.py, line 312). -/
def capture_iteration (P : Prims) (c : CapCfg) (st : CapSt) : CapSt × Option Bytes :=
  segment_loop P c c.num_segments (capture_pre_step P c st) none

/-- The digest check of one iteration (capture_sha3.py, lines 346-348):
compare the device read-back against the first `output_len` bytes of the
accumulated expected value. An absent accumulator (only possible when
`num_segments = 0`) raises in the source and is modelled as a failed
check. -/
def capture_check (P : Prims) (c : CapCfg) (it : Nat) :
    Option Bytes → Bool
  | some e => check_ciphertext (P.device it) e c.output_len
  | none => false

/-- Result of the capture loop: `ok = false` when the digest check
assertion fired (aborting the session), the final loop state, and the
number of while-iterations executed. -/
structure CapResult where
  ok : Bool
  st : CapSt
  iterations : Nat
deriving DecidableEq

/-- The `while remaining_num_traces > 0` loop of `capture`
(capture_sha3.py, lines 286-355) on explicit fuel. Each iteration runs
`capture_iteration`, performs the digest check (a failed check aborts
the whole session: the loop returns immediately with `ok = false` and is
never retried), and otherwise decrements the remaining trace count by
`num_segments`. The fuel is an artifact of totality: `capture` supplies
`num_traces.toNat`, which is sufficient whenever `num_segments ≥ 1`. -/
def capture_loop (P : Prims) (c : CapCfg) :
    Nat → Int → CapSt → Nat → CapResult
  | 0, _, st, _ => ⟨true, st, 0⟩
  | fuel + 1, remaining, st, it =>
    if remaining ≤ 0 then ⟨true, st, 0⟩
    else
      if capture_check P c it (capture_iteration P c st).2 then
        ⟨(capture_loop P c fuel (remaining - (c.num_segments : Int))
            (capture_iteration P c st).1 (it + 1)).ok,
         (capture_loop P c fuel (remaining - (c.num_segments : Int))
            (capture_iteration P c st).1 (it + 1)).st,
         (capture_loop P c fuel (remaining - (c.num_segments : Int))
            (capture_iteration P c st).1 (it + 1)).iterations + 1⟩
      else ⟨false, (capture_iteration P c st).1, 1⟩

/-- The `capture` entry point (capture_sha3.py, lines 252-355):
initialize the loop state and run the while loop over
`num_traces` remaining traces. -/
def capture (P : Prims) (c : CapCfg) (num_traces : Int) : CapResult :=
  capture_loop P c num_traces.toNat num_traces (init_capture_state c.text_fixed) 0

/-! ## Concrete instantiations of the external collaborators, used to
evaluate the embedding on concrete inputs. -/

/-- Degenerate primitives: empty digests, identity cipher, all-zero PRNG,
empty device read-back. -/
def prims0 : Prims where
  sha3 := fun _ => []
  aes := fun _ b => b
  kmac := fun _ _ => []
  rand := fun _ => 0
  device := fun _ => []

/-- Primitives with a distinguishable digest and a non-constant PRNG. -/
def prims2 : Prims where
  sha3 := fun pt => [pt.headD 0 + 1]
  aes := fun _ b => b
  kmac := fun _ _ => []
  rand := fun n => (n + 7) % 251
  device := fun _ => []

/-- A `sha3_random`, non-batch configuration with `output_len = 0` so
that the digest check trivially passes against `prims2.device`. -/
def cfg2 : CapCfg := ⟨Mode.sha3_random, false, 1, 0, [0xAA], 16⟩

/-- The 16-byte all-`0xAA` fixed message. -/
def tf16 : Bytes := List.replicate 16 0xAA

/-- An FVSR batch configuration with two segments. -/
def cfgB : CapCfg := ⟨Mode.sha3_fvsr_data, true, 2, 32, tf16, 16⟩

/-! ## Helper lemmas -/

/-- `drawBytes` draws exactly the requested number of bytes. -/
theorem drawBytes_length (r : Nat → Nat) : ∀ k n, (drawBytes r k n).length = n := by
  intro k n
  induction n generalizing k with
  | zero => rfl
  | succ n ih => simp [drawBytes, ih]

/-- The first byte of a non-empty draw is the PRNG value at the starting
index, reduced to the byte range. -/
theorem drawBytes_headD (r : Nat → Nat) (k n : Nat) :
    (drawBytes r k (n + 1)).headD 0 = r k % 256 := rfl

/-- Byte-wise exclusive-or of two byte strings is commutative. -/
theorem zipWith_xor_comm (xs ys : Bytes) :
    List.zipWith Nat.xor xs ys = List.zipWith Nat.xor ys xs :=
  List.zipWith_comm_of_comm Nat.xor Nat.xor_comm xs ys

/-- Boolean list equality agrees with propositional equality. -/
theorem check_ciphertext_iff (actual expected : Bytes) (len : Nat) :
    check_ciphertext actual expected len = true ↔ actual = expected.take len := by
  simp [check_ciphertext]

/-! ## Claim theorems -/

/-- C9: `advance_fixed` (hence `get_fixed`/`get_kmac_fixed`) mutates only
`text_fixed`, leaving `text_random`, `key_random`, `key_fixed` unchanged;
`advance_random` (hence `get_random`/`get_kmac_random`) mutates only
`text_random` and `key_random`, leaving `text_fixed` and `key_fixed`
unchanged; in particular no advance operation ever modifies `key_fixed`. -/
theorem claim9_frame_effects : ∀ (P : Prims) (s : GenState),
    ((advance_fixed P s).text_random = s.text_random
      ∧ (advance_fixed P s).key_random = s.key_random
      ∧ (advance_fixed P s).key_fixed = s.key_fixed)
    ∧ ((advance_random P s).text_fixed = s.text_fixed
      ∧ (advance_random P s).key_fixed = s.key_fixed)
    ∧ (get_fixed P s).2 = advance_fixed P s
    ∧ (get_kmac_fixed P s).2 = advance_fixed P s
    ∧ (get_random P s).2 = advance_random P s
    ∧ (get_kmac_random P s).2 = advance_random P s := by
  intro P s
  exact ⟨⟨rfl, rfl, rfl⟩, ⟨rfl, rfl⟩, rfl, rfl, rfl, rfl⟩

/-- C7: replaying an identical sequence of generator calls against two
generators whose fixed/random state fields agree reproduces identical
plaintext/digest/key outputs byte-for-byte: every output is a function of
the current fixed/random state only, with no hidden or external inputs. -/
theorem claim7_generator_determinism (P : Prims) (cs : List DgCall)
    (s t : GenState)
    (h1 : s.text_fixed = t.text_fixed) (h2 : s.text_random = t.text_random)
    (h3 : s.key_fixed = t.key_fixed) (h4 : s.key_random = t.key_random) :
    run_calls P cs s = run_calls P cs t := by
  have hst : s = t := by cases s; cases t; simp_all
  rw [hst]

/-- Witness for C7 at a concrete call sequence against two freshly
initialized generators. -/
theorem claim7_generator_determinism_witness :
    run_calls prims0 [DgCall.get_fixed, DgCall.get_kmac_random, DgCall.get_random]
        init_gen_state
      = run_calls prims0 [DgCall.get_fixed, DgCall.get_kmac_random, DgCall.get_random]
        init_gen_state :=
  claim7_generator_determinism prims0
    [DgCall.get_fixed, DgCall.get_kmac_random, DgCall.get_random]
    init_gen_state init_gen_state rfl rfl rfl rfl

/-- C4: in FVSR batch mode, every `generate_ref_crypto` call draws a
dedicated 16-byte dummy block after the plaintext, takes the low bit of
the dummy's first byte as the selector for the next segment, and uses the
dummy nowhere else (the plaintext is the configured fixed message when
the incoming selector is set, a fresh draw of `text_len_bytes` bytes
otherwise, and the ciphertext is the SHA3 digest of that plaintext
alone). -/
theorem claim4_fvsr_batch_dummy : ∀ (P : Prims) (sf : Nat) (pt pf : Bytes)
    (tlb : Nat) (dg : GenState) (k : Nat),
    generate_ref_crypto P sf Mode.sha3_fvsr_data true pt pf tlb dg k =
      { plaintext := if sf ≠ 0 then pf else drawBytes P.rand k tlb
        ciphertext := P.sha3 (if sf ≠ 0 then pf else drawBytes P.rand k tlb)
        sample_fixed :=
          Nat.land ((drawBytes P.rand (if sf ≠ 0 then k else k + tlb) 16).headD 0) 1
        dg := dg
        k := (if sf ≠ 0 then k else k + tlb) + 16 }
    ∧ (drawBytes P.rand (if sf ≠ 0 then k else k + tlb) 16).headD 0
        = P.rand (if sf ≠ 0 then k else k + tlb) % 256
    ∧ (drawBytes P.rand (if sf ≠ 0 then k else k + tlb) 16).length = 16
    ∧ (drawBytes P.rand k tlb).length = tlb := by
  intro P sf pt pf tlb dg k
  refine ⟨?_, drawBytes_headD P.rand _ 15, drawBytes_length P.rand _ 16,
    drawBytes_length P.rand k tlb⟩
  by_cases hsf : sf = 0 <;> simp [generate_ref_crypto, hsf]

/-- In batch mode the segment loop's accumulator is the XOR-fold of the
per-segment ciphertexts, in trigger order, starting from the incoming
accumulator. -/
theorem segment_loop_fold (P : Prims) (mode : Mode) (seg ol : Nat)
    (pf : Bytes) (tlb : Nat) :
    ∀ (n : Nat) (st : CapSt) (e : Option Bytes),
      (segment_loop P ⟨mode, true, seg, ol, pf, tlb⟩ n st e).2
        = List.foldl xorFoldStep e
            (segment_ct_list P ⟨mode, true, seg, ol, pf, tlb⟩ n st) := by
  intro n
  induction n with
  | zero => intro st e; rfl
  | succ n ih =>
    intro st e
    simp [segment_loop, segment_ct_list, segment_expected_update, ih]

/-- C1: per batch, the expected-value accumulator starts absent
(`capture_iteration` seeds the segment loop with `none`); folding a
digest into an absent accumulator yields that digest; folding into an
existing accumulator yields the byte-wise exclusive-or of accumulator
and digest; the batch segment loop computes exactly this fold over the
segment digests; and the final device comparison succeeds exactly on
equality with the first `output_len` bytes of the accumulated value. -/
theorem claim1_batch_xor_fold :
    (∀ d : Bytes, xorFoldStep none d = some d)
    ∧ (∀ e d : Bytes, xorFoldStep (some e) d = some (List.zipWith Nat.xor e d))
    ∧ (∀ (P : Prims) (c : CapCfg) (st : CapSt),
        capture_iteration P c st
          = segment_loop P c c.num_segments (capture_pre_step P c st) none)
    ∧ (∀ (P : Prims) (mode : Mode) (seg ol : Nat) (pf : Bytes) (tlb n : Nat)
        (st : CapSt),
        (segment_loop P ⟨mode, true, seg, ol, pf, tlb⟩ n st none).2
          = List.foldl xorFoldStep none
              (segment_ct_list P ⟨mode, true, seg, ol, pf, tlb⟩ n st))
    ∧ (∀ (actual e : Bytes) (len : Nat),
        check_ciphertext actual e len = true ↔ actual = e.take len)
    ∧ (∀ (P : Prims) (c : CapCfg) (it : Nat) (e : Bytes),
        capture_check P c it (some e) = check_ciphertext (P.device it) e c.output_len) := by
  refine ⟨fun d => rfl, ?_, fun P c st => rfl,
    fun P mode seg ol pf tlb n st => segment_loop_fold P mode seg ol pf tlb n st none,
    check_ciphertext_iff, fun P c it e => rfl⟩
  intro e d
  simp [xorFoldStep, zipWith_xor_comm d e]

/-- C8: the fold of a single digest is that digest, the batch and
non-batch accumulator update rules agree on an empty accumulator, and a
one-segment loop yields the same expected value (the digest of its only
segment) whether or not batch mode is on. -/
theorem claim8_single_segment_fold :
    (∀ c : Bytes, xorFoldStep none c = some c)
    ∧ (∀ (mode : Mode) (seg ol : Nat) (pf : Bytes) (tlb : Nat) (ct : Bytes),
        segment_expected_update ⟨mode, true, seg, ol, pf, tlb⟩ none ct
          = segment_expected_update ⟨mode, false, seg, ol, pf, tlb⟩ none ct)
    ∧ (∀ (P : Prims) (mode : Mode) (b : Bool) (seg ol : Nat) (pf : Bytes)
        (tlb : Nat) (st : CapSt),
        (segment_loop P ⟨mode, b, seg, ol, pf, tlb⟩ 1 st none).2
          = some ((segment_loop P ⟨mode, b, seg, ol, pf, tlb⟩ 1 st none).1.ct)) := by
  refine ⟨fun c => rfl, ?_, ?_⟩
  · intro mode seg ol pf tlb ct
    simp [segment_expected_update, xorFoldStep]
  · intro P mode b seg ol pf tlb st
    cases b <;> simp [segment_loop, segment_expected_update, xorFoldStep]

/-- C3 counterexample: the claim says the very first sample of a capture
session always uses the fixed value, but the session starts with
`sample_fixed = 0` (capture_sha3.py, line 275), so the first batch
segment's plaintext is the fresh PRNG draw, not the configured fixed
message. -/
theorem claim3_first_sample_not_fixed :
    (init_capture_state tf16).sample_fixed = 0
    ∧ (capture_segment prims0 cfgB (init_capture_state tf16)).text ≠ tf16
    ∧ (capture_segment prims0 cfgB (init_capture_state tf16)).text
        = drawBytes prims0.rand 0 16 := by decide

/-- C3 (amended): in FVSR modes the selector evaluated while processing
sample `i` determines whether sample `i + 1` uses the fixed or the random
value (one-step lookahead: each call's plaintext is chosen by the
incoming selector, the outgoing selector is computed from material of the
current call, and the segment loop feeds each segment's outgoing selector
to the next segment), and the very first sample of a capture session
always uses the RANDOM value, because the selector starts at 0
(mirroring the device's `run_fixed = false`). -/
theorem claim3_lookahead_first_sample_random :
    (∀ tf : Bytes, (init_capture_state tf).sample_fixed = 0)
    ∧ (∀ (P : Prims) (sf : Nat) (pt pf : Bytes) (tlb : Nat) (dg : GenState)
        (k : Nat),
        (generate_ref_crypto P sf Mode.sha3_fvsr_data true pt pf tlb dg k).plaintext
          = if sf ≠ 0 then pf else drawBytes P.rand k tlb)
    ∧ (∀ (P : Prims) (sf : Nat) (pt pf : Bytes) (tlb : Nat) (dg : GenState)
        (k : Nat),
        (generate_ref_crypto P sf Mode.sha3_fvsr_data false pt pf tlb dg k).plaintext
          = if sf ≠ 0 then dg.text_fixed else dg.text_random)
    ∧ (∀ (P : Prims) (mode : Mode) (seg ol : Nat) (pf : Bytes) (tlb : Nat)
        (st : CapSt),
        (capture_segment P ⟨mode, true, seg, ol, pf, tlb⟩ st).sample_fixed
          = (generate_ref_crypto P st.sample_fixed mode true st.text pf tlb
              st.dg st.k).sample_fixed)
    ∧ (∀ (P : Prims) (c : CapCfg) (n : Nat) (st : CapSt) (e : Option Bytes),
        segment_loop P c (n + 1) st e
          = segment_loop P c n (capture_segment P c st)
              (segment_expected_update c e (capture_segment P c st).ct)) := by
  refine ⟨fun tf => rfl, ?_, ?_, ?_, fun P c n st e => rfl⟩
  · intro P sf pt pf tlb dg k
    by_cases hsf : sf = 0 <;> simp [generate_ref_crypto, hsf]
  · intro P sf pt pf tlb dg k
    by_cases hsf : sf = 0 <;>
      simp [generate_ref_crypto, get_sha3_fixed, get_sha3_random, hsf]
  · intro P mode seg ol pf tlb st
    by_cases hm : mode = Mode.sha3_random <;> simp [capture_segment, hm]

/-- C5: in FVSR non-batch mode (where `num_segments` is forced to 1),
one while-iteration produces exactly one stimulus/digest pair — the trace
list grows by exactly that one pair, the expected value is that single
digest — and the selector for the next cycle is the low bit of the first
byte of the plaintext just used. -/
theorem claim5_fvsr_nonbatch_step :
    ∀ (P : Prims) (ol : Nat) (pf : Bytes) (tlb : Nat) (st : CapSt),
    ((capture_iteration P ⟨Mode.sha3_fvsr_data, false, 1, ol, pf, tlb⟩ st).1.traces
        = st.traces ++
          [((if st.sample_fixed ≠ 0 then st.dg.text_fixed else st.dg.text_random),
            P.sha3 (if st.sample_fixed ≠ 0 then st.dg.text_fixed else st.dg.text_random))])
    ∧ ((capture_iteration P ⟨Mode.sha3_fvsr_data, false, 1, ol, pf, tlb⟩ st).1.sample_fixed
        = Nat.land
            ((if st.sample_fixed ≠ 0 then st.dg.text_fixed else st.dg.text_random).headD 0) 1)
    ∧ ((capture_iteration P ⟨Mode.sha3_fvsr_data, false, 1, ol, pf, tlb⟩ st).2
        = some (P.sha3 (if st.sample_fixed ≠ 0 then st.dg.text_fixed
                        else st.dg.text_random))) := by
  intro P ol pf tlb st
  by_cases hsf : st.sample_fixed = 0 <;>
    simp [capture_iteration, capture_pre_step, segment_loop, capture_segment,
      segment_expected_update, generate_ref_crypto, get_sha3_fixed,
      get_sha3_random, hsf]

/-- C2: evaluation of the plaintext-reuse bug of `sha3_random` mode. The
fresh 16 random bytes drawn at the end of each iteration
(capture_sha3.py, lines 332-335) go into a local variable `plaintext`
that is never read; the variable actually absorbed and recorded is
`text`, which is never reassigned in this mode. Running two iterations
records the initial fixed text twice (the second iteration's plaintext
equals the first's), even though the PRNG was consumed (k = 32) and the
bytes it produced differ from the recorded plaintext. -/
theorem claim2_random_mode_plaintext_reuse :
    ((capture prims2 cfg2 2).st.traces.map Prod.fst = [[0xAA], [0xAA]])
    ∧ ((capture prims2 cfg2 2).ok = true)
    ∧ ((capture prims2 cfg2 2).iterations = 2)
    ∧ ((capture prims2 cfg2 2).st.k = 32)
    ∧ drawBytes prims2.rand 0 16 ≠ [0xAA]
    ∧ drawBytes prims2.rand 16 16 ≠ [0xAA] := by decide

/-- Each segment pass appends exactly one trace. -/
theorem capture_segment_traces_len (P : Prims) (c : CapCfg) (st : CapSt) :
    (capture_segment P c st).traces.length = st.traces.length + 1 := by
  rcases c with ⟨mode, b, seg, ol, pf, tlb⟩
  cases b <;> cases mode <;> simp [capture_segment]

/-- The segment loop appends exactly `n` traces over `n` passes. -/
theorem segment_loop_traces_len (P : Prims) (c : CapCfg) :
    ∀ (n : Nat) (st : CapSt) (e : Option Bytes),
      ((segment_loop P c n st e).1).traces.length = st.traces.length + n := by
  intro n
  induction n with
  | zero => intro st e; rfl
  | succ n ih =>
    intro st e
    simp only [segment_loop]
    rw [ih, capture_segment_traces_len]
    omega

/-- The pre-trigger step never touches the trace list. -/
theorem capture_pre_step_traces (P : Prims) (c : CapCfg) (st : CapSt) :
    (capture_pre_step P c st).traces = st.traces := by
  unfold capture_pre_step
  split <;> rfl

/-- One while-iteration appends exactly `num_segments` traces. -/
theorem capture_iteration_traces_len (P : Prims) (c : CapCfg) (st : CapSt) :
    ((capture_iteration P c st).1).traces.length
      = st.traces.length + c.num_segments := by
  unfold capture_iteration
  rw [segment_loop_traces_len, capture_pre_step_traces]

/-- Across the whole loop, the number of appended traces is the number of
executed iterations times `num_segments`. -/
theorem capture_loop_traces_len (P : Prims) (c : CapCfg) :
    ∀ (fuel : Nat) (remaining : Int) (st : CapSt) (it : Nat),
      ((capture_loop P c fuel remaining st it).st).traces.length
        = st.traces.length
          + (capture_loop P c fuel remaining st it).iterations * c.num_segments := by
  intro fuel
  induction fuel with
  | zero => intro remaining st it; simp [capture_loop]
  | succ fuel ih =>
    intro remaining st it
    by_cases hle : remaining ≤ 0
    · simp [capture_loop, hle]
    · cases hchk : capture_check P c it (capture_iteration P c st).2 with
      | false =>
        simp [capture_loop, hle, hchk, capture_iteration_traces_len]
      | true =>
        have hiter := capture_iteration_traces_len P c st
        have hrest := ih (remaining - (c.num_segments : Int))
          (capture_iteration P c st).1 (it + 1)
        simp only [capture_loop]
        rw [if_neg hle, hchk]
        simp only [if_pos]
        rw [hrest, hiter, Nat.add_mul, Nat.one_mul]
        ring

/-- Recurrence of the ceiling division `(r + s - 1) / s` along one loop
step of size `s`. -/
theorem ceil_div_rec (r s : Nat) (hr : 1 ≤ r) (hs : 1 ≤ s) :
    (r + s - 1) / s = (r - s + s - 1) / s + 1 := by
  rcases le_or_lt s r with h | h
  · have h1 : r - s + s - 1 = r - 1 := by omega
    have h2 : r + s - 1 = (r - 1) + s := by omega
    rw [h1, h2, Nat.add_div_right _ hs]
  · have h1 : r - s = 0 := by omega
    have h2 : r + s - 1 = (r - 1) + s := by omega
    rw [h1, h2, Nat.add_div_right _ hs, Nat.zero_add]
    have h3 : (r - 1) / s = 0 := Nat.div_eq_of_lt (by omega)
    have h4 : (s - 1) / s = 0 := Nat.div_eq_of_lt (by omega)
    rw [h3, h4]

/-- When no digest check fails, the loop executes exactly
`ceil(remaining / num_segments)` iterations (given sufficient fuel). -/
theorem capture_loop_iters_of_ok (P : Prims) (c : CapCfg)
    (hs : 1 ≤ c.num_segments) :
    ∀ (fuel : Nat) (remaining : Int), remaining.toNat ≤ fuel →
      ∀ (st : CapSt) (it : Nat),
      (capture_loop P c fuel remaining st it).ok = true →
      (capture_loop P c fuel remaining st it).iterations
        = (remaining.toNat + c.num_segments - 1) / c.num_segments := by
  intro fuel
  induction fuel with
  | zero =>
    intro remaining hle st it _
    have h0 : remaining.toNat = 0 := Nat.le_zero.mp hle
    have hz : (c.num_segments - 1) / c.num_segments = 0 :=
      Nat.div_eq_of_lt (by omega)
    simp [capture_loop, h0, hz]
  | succ fuel ih =>
    intro remaining hle st it hok
    by_cases hle0 : remaining ≤ 0
    · have h0 : remaining.toNat = 0 := by omega
      have hz : (c.num_segments - 1) / c.num_segments = 0 :=
        Nat.div_eq_of_lt (by omega)
      simp [capture_loop, hle0, h0, hz]
    · have hr1 : 1 ≤ remaining.toNat := by omega
      cases hchk : capture_check P c it (capture_iteration P c st).2 with
      | false =>
        exfalso
        simp [capture_loop, hle0, hchk] at hok
      | true =>
        have hle' : (remaining - (c.num_segments : Int)).toNat ≤ fuel := by omega
        have heq : (remaining - (c.num_segments : Int)).toNat
            = remaining.toNat - c.num_segments := by omega
        simp only [capture_loop] at hok ⊢
        rw [if_neg hle0, hchk] at hok ⊢
        simp only [if_pos] at hok ⊢
        have hrec := ih (remaining - (c.num_segments : Int)) hle'
          (capture_iteration P c st).1 (it + 1) hok
        rw [heq] at hrec
        rw [hrec]
        exact (ceil_div_rec remaining.toNat c.num_segments hr1 hs).symm

/-- Lower bound: the ceiling of `n / s` times `s` covers `n`. -/
theorem ceil_mul_ge (n s : Nat) (hs : 1 ≤ s) :
    n ≤ ((n + s - 1) / s) * s := by
  have hdm := Nat.div_add_mod (n + s - 1) s
  have hmod : (n + s - 1) % s < s := Nat.mod_lt _ (by omega)
  have key : ((n + s - 1) / s) * s + (n + s - 1) % s = n + s - 1 := by
    rw [Nat.mul_comm]; exact hdm
  generalize hA : ((n + s - 1) / s) * s = A at key ⊢
  omega

/-- Strict excess: when `s` does not divide `n`, the padded total strictly
exceeds `n`. -/
theorem ceil_mul_gt_of_not_dvd (n s : Nat) (hs : 1 ≤ s) (hnd : ¬ s ∣ n) :
    n < ((n + s - 1) / s) * s := by
  have hge := ceil_mul_ge n s hs
  rcases Nat.lt_or_ge n (((n + s - 1) / s) * s) with h | h
  · exact h
  · have heq : n = ((n + s - 1) / s) * s := Nat.le_antisymm hge h
    have hdvd : s ∣ ((n + s - 1) / s) * s := dvd_mul_left s ((n + s - 1) / s)
    rw [← heq] at hdvd
    exact absurd hdvd hnd

/-- C10: for `num_traces ≥ 1` and `num_segments ≥ 1` the capture loop
always appends `iterations * num_segments` traces; when every digest
check passes it terminates after exactly `ceil(num_traces /
num_segments)` iterations and appends `ceil(num_traces / num_segments) *
num_segments` traces, which covers `num_traces` and strictly exceeds it
whenever `num_segments` does not divide `num_traces`. -/
theorem claim10_loop_count (P : Prims) (c : CapCfg) (n : Nat)
    (hn : 1 ≤ n) (hs : 1 ≤ c.num_segments) :
    ((capture P c (n : Int)).st.traces.length
        = (capture P c (n : Int)).iterations * c.num_segments)
    ∧ ((capture P c (n : Int)).ok = true →
        (capture P c (n : Int)).iterations
          = (n + c.num_segments - 1) / c.num_segments)
    ∧ ((capture P c (n : Int)).ok = true →
        (capture P c (n : Int)).st.traces.length
          = ((n + c.num_segments - 1) / c.num_segments) * c.num_segments)
    ∧ (n ≤ ((n + c.num_segments - 1) / c.num_segments) * c.num_segments)
    ∧ (¬ c.num_segments ∣ n →
        n < ((n + c.num_segments - 1) / c.num_segments) * c.num_segments) := by
  have htoNat : ((n : Int)).toNat = n := by omega
  have h1 : (capture P c (n : Int)).st.traces.length
      = (capture P c (n : Int)).iterations * c.num_segments := by
    have h := capture_loop_traces_len P c ((n : Int)).toNat (n : Int)
      (init_capture_state c.text_fixed) 0
    simpa [capture, init_capture_state] using h
  have h2 : (capture P c (n : Int)).ok = true →
      (capture P c (n : Int)).iterations
        = (n + c.num_segments - 1) / c.num_segments := by
    intro hok
    have h := capture_loop_iters_of_ok P c hs ((n : Int)).toNat (n : Int)
      (Nat.le_refl _) (init_capture_state c.text_fixed) 0 hok
    rw [htoNat] at h
    exact h
  exact ⟨h1, h2, fun hok => by rw [h1, h2 hok], ceil_mul_ge n c.num_segments hs,
    ceil_mul_gt_of_not_dvd n c.num_segments hs⟩

/-- A two-segment `sha3_random` configuration with `output_len = 0`, used
to run the loop arithmetic on a concrete input where every check passes. -/
def cfg10 : CapCfg := ⟨Mode.sha3_random, false, 2, 0, [5], 3⟩

/-- Witness for C10 at `num_traces = 3`, `num_segments = 2`: two
iterations, four traces, strictly more than the three requested. -/
theorem claim10_loop_count_witness :
    1 ≤ (3 : Nat) ∧ 1 ≤ cfg10.num_segments
    ∧ (((capture prims0 cfg10 ((3 : Nat) : Int)).st.traces.length
          = (capture prims0 cfg10 ((3 : Nat) : Int)).iterations * cfg10.num_segments)
      ∧ ((capture prims0 cfg10 ((3 : Nat) : Int)).ok = true →
          (capture prims0 cfg10 ((3 : Nat) : Int)).iterations
            = ((3 : Nat) + cfg10.num_segments - 1) / cfg10.num_segments)
      ∧ ((capture prims0 cfg10 ((3 : Nat) : Int)).ok = true →
          (capture prims0 cfg10 ((3 : Nat) : Int)).st.traces.length
            = (((3 : Nat) + cfg10.num_segments - 1) / cfg10.num_segments)
                * cfg10.num_segments)
      ∧ ((3 : Nat) ≤ (((3 : Nat) + cfg10.num_segments - 1) / cfg10.num_segments)
          * cfg10.num_segments)
      ∧ (¬ cfg10.num_segments ∣ (3 : Nat) →
          (3 : Nat) < (((3 : Nat) + cfg10.num_segments - 1) / cfg10.num_segments)
            * cfg10.num_segments)) :=
  ⟨by decide, by decide, claim10_loop_count prims0 cfg10 3 (by decide) (by decide)⟩

/-- C6: the digest check succeeds exactly when the device-reported bytes
equal the first `output_len` bytes of the host-computed expected value;
on a mismatch the while-iteration's assertion fires and the whole capture
session aborts immediately (the loop returns with `ok = false` after this
single iteration, regardless of how many traces remain — it is never
retried); on a match the loop continues to the next batch. -/
theorem claim6_check_fatal (P : Prims) (c : CapCfg) (fuel : Nat)
    (remaining : Int) (st : CapSt) (it : Nat) (e actual e2 : Bytes) (len : Nat)
    (hr : 0 < remaining)
    (hsome : (capture_iteration P c st).2 = some e) :
    (check_ciphertext actual e2 len = true ↔ actual = e2.take len)
    ∧ (check_ciphertext (P.device it) e c.output_len = false →
        capture_loop P c (fuel + 1) remaining st it
          = ⟨false, (capture_iteration P c st).1, 1⟩)
    ∧ (check_ciphertext (P.device it) e c.output_len = true →
        capture_loop P c (fuel + 1) remaining st it
          = ⟨(capture_loop P c fuel (remaining - (c.num_segments : Int))
                (capture_iteration P c st).1 (it + 1)).ok,
             (capture_loop P c fuel (remaining - (c.num_segments : Int))
                (capture_iteration P c st).1 (it + 1)).st,
             (capture_loop P c fuel (remaining - (c.num_segments : Int))
                (capture_iteration P c st).1 (it + 1)).iterations + 1⟩) := by
  have hnle : ¬ remaining ≤ 0 := not_le.mpr hr
  refine ⟨check_ciphertext_iff actual e2 len, ?_, ?_⟩
  · intro hfail
    simp [capture_loop, hnle, hsome, capture_check, hfail]
  · intro hpass
    simp [capture_loop, hnle, hsome, capture_check, hpass]

/-- A `sha3_random` non-batch configuration with `output_len = 0`
(so that the check against `prims0` trivially passes). -/
def cfg6 : CapCfg := ⟨Mode.sha3_random, false, 1, 0, [3], 4⟩

/-- Initial state for the C6 witness run. -/
def st6 : CapSt := init_capture_state [3]

/-- Witness for C6 at a concrete iteration with a concrete expected
value. -/
theorem claim6_check_fatal_witness :
    (0 : Int) < 2
    ∧ (capture_iteration prims0 cfg6 st6).2 = some []
    ∧ ((check_ciphertext [1] [2, 3] 1 = true ↔ [1] = List.take 1 [2, 3])
      ∧ (check_ciphertext (prims0.device 0) [] cfg6.output_len = false →
          capture_loop prims0 cfg6 (0 + 1) 2 st6 0
            = ⟨false, (capture_iteration prims0 cfg6 st6).1, 1⟩)
      ∧ (check_ciphertext (prims0.device 0) [] cfg6.output_len = true →
          capture_loop prims0 cfg6 (0 + 1) 2 st6 0
            = ⟨(capture_loop prims0 cfg6 0 (2 - (cfg6.num_segments : Int))
                  (capture_iteration prims0 cfg6 st6).1 (0 + 1)).ok,
               (capture_loop prims0 cfg6 0 (2 - (cfg6.num_segments : Int))
                  (capture_iteration prims0 cfg6 st6).1 (0 + 1)).st,
               (capture_loop prims0 cfg6 0 (2 - (cfg6.num_segments : Int))
                  (capture_iteration prims0 cfg6 st6).1 (0 + 1)).iterations + 1⟩)) :=
  ⟨by decide, by decide,
    claim6_check_fatal prims0 cfg6 0 2 st6 0 [] [1] [2, 3] 1 (by decide) (by decide)⟩

end OtSca
